import Mathlib

/-! Verification of the fetcher HTTP retry/backoff/decode core.

Shallow embedding of the Go package `fetcher` (retry loop, backoff
strategies, rate limiter, response lifecycle and decoder dispatch),
with theorems settling the specification claims.

Machine integers (`time.Duration`, `int64`) are modelled as `Int` with
explicit two's-complement wraparound where Go arithmetic can overflow.
-/

namespace Fetcher

/-- Wrap an integer to the signed 64-bit range, as Go `int64` arithmetic does. -/
def i64 (z : Int) : Int :=
  let r := z % (2 ^ 64)
  if r < 2 ^ 63 then r else r - 2 ^ 64

/-- Go conversion `uint(n)` of a 64-bit int to an unsigned 64-bit value. -/
def toUInt64 (z : Int) : Nat :=
  (z % (2 ^ 64)).toNat

/-- Go left shift on `int64`: `x << n`, with wraparound; a shift count of 64
or more yields 0, as in Go. -/
def goShl (x : Int) (n : Nat) : Int :=
  i64 (x * 2 ^ n)

example : i64 5 = 5 := by decide
example : i64 (2 ^ 63) = -(2 ^ 63) := by decide
example : goShl 1000000000 64 = 0 := by decide
example : Int.tdiv (-7) 2 = -3 := by decide

/-! Backoff strategies (`backoff.go`).
Here `time.Duration` values are nanosecond counts held in `int64`. -/

/-- Clamp `baseDelay` into `[min, max]`, checking the upper bound first,
exactly as the source `normalizeDelay` does. -/
def normalizeDelay (baseDelay lo hi : Int) : Int :=
  if baseDelay > hi then hi
  else if baseDelay < lo then lo
  else baseDelay

/-- Go `jitter`: adjust `baseDelay` by the random draw `r` obtained from
`rand.Int63n(2*maxJitter)`; `none` models the fault `rand.Int63n` raises when
its bound is not positive. Additions follow Go `int64` wraparound. -/
def jitter (baseDelay : Int) (r : Int) : Option Int :=
  let maxJitter := Int.tdiv baseDelay 3
  if 2 * maxJitter ≤ 0 then none
  else
    let d := i64 (baseDelay + (r - maxJitter))
    some (if d ≤ 0 then 1 else d)

/-- Configuration of `exponentialBackoff`. -/
structure ExponentialBackoff where
  min : Int
  max : Int
  useJitter : Bool

/-- Base delay computed by `exponentialBackoff.waitDuration` before jitter and
clamping: `b.min * 1 << uint(attempt)` after `attempt--`, with Go `int64`
shift semantics. -/
def expBaseDelay (b : ExponentialBackoff) (attempt : Int) : Int :=
  goShl (i64 (b.min * 1)) (toUInt64 (attempt - 1))

/-- Go `exponentialBackoff.waitDuration`; `r` is the value the jitter draw
takes when jitter is enabled, and `none` models a fault inside `jitter`. -/
def ExponentialBackoff.waitDuration (b : ExponentialBackoff) (attempt : Int)
    (r : Int) : Option Int := do
  let delay := expBaseDelay b attempt
  let delay ← if b.useJitter then jitter delay r else pure delay
  pure (normalizeDelay delay b.min b.max)

/-- Configuration of `linearBackoff`. -/
structure LinearBackoff where
  min : Int
  max : Int
  interval : Int
  useJitter : Bool

/-- Base delay computed by `linearBackoff.waitDuration` before jitter and
clamping: `b.min + b.interval*time.Duration(attempt)` after `attempt--`, with
Go `int64` wraparound. -/
def linBaseDelay (b : LinearBackoff) (attempt : Int) : Int :=
  i64 (b.min + i64 (b.interval * i64 (attempt - 1)))

/-- Go `linearBackoff.waitDuration`; `r` is the value the jitter draw takes
when jitter is enabled, and `none` models a fault inside `jitter`. -/
def LinearBackoff.waitDuration (b : LinearBackoff) (attempt : Int)
    (r : Int) : Option Int := do
  let delay := linBaseDelay b attempt
  let delay ← if b.useJitter then jitter delay r else pure delay
  pure (normalizeDelay delay b.min b.max)

/-- The clamp operation as the specification words it: `x` clamped to the
interval `[lo, hi]`. -/
def clampSpec (x lo hi : Int) : Int :=
  max lo (min hi x)

example : ExponentialBackoff.waitDuration ⟨1000000000, 30000000000, false⟩ 3 0
    = some 4000000000 := by decide

/-! Retry loop: `httpRespWithRetries` and `Request.waitForRetry`
(client source, part_006), with `Request.isErrBreaking` (part_002). -/

/-- Classes of Go error values relevant to the retry loop. `resetByPeer`
stands for any error whose message contains "read: connection reset by
peer"; `eof` is `io.EOF`; `ctxCanceled` is the error `ctx.Err()` yields once
the context completes; `other` covers every remaining error value. -/
inductive GoErr where
  | eof
  | resetByPeer
  | ctxCanceled
  | other (tag : Nat)
deriving DecidableEq, Repr

/-- Fields of `Request` consulted by the retry loop. `maxAttempts` is a Go
`int`. -/
structure RetryReq where
  maxAttempts : Int
  retryOnEOFError : Bool
  optMultiPartForm : Bool
  multiPartFormErr : Option GoErr
deriving DecidableEq, Repr

/-- Go `Request.isErrBreaking`: `false` for a reset-by-peer class error, and
for `io.EOF` when `WithRetryOnEOFError` was used; `true` otherwise. -/
def RetryReq.isErrBreaking (req : RetryReq) (e : GoErr) : Bool :=
  if e = .resetByPeer ∨ (req.retryOnEOFError = true ∧ e = .eof) then false
  else true

/-- Result of one physical `http.Client.Do` call. On error the returned
`*http.Response` is nil, per the `net/http` contract for transport-level
failures; on success `closeErr` is the error `Body.Close()` returns if the
loop later closes this response's body. -/
inductive TranResult where
  | ok (statusCode : Int) (closeErr : Option GoErr)
  | err (e : GoErr)
deriving DecidableEq, Repr

/-- Outcome of `httpRespWithRetries`: `resp st` models returning a non-nil
`*http.Response` with status `st` and a nil error; `errOut e` models
returning a nil response together with error `e`; `panicked` models a
runtime nil-pointer dereference. -/
inductive LoopResult where
  | resp (statusCode : Int)
  | errOut (e : GoErr)
  | panicked
deriving DecidableEq, Repr

/-- Iterations of the retry loop in `httpRespWithRetries`, started at attempt
`i`. `tran j` is the result of the j-th physical call (1-based); `ctxDone j`
tells whether the caller's context completes before the backoff timer during
the `waitForRetry` that follows attempt `j`. `fuel` bounds how many
iterations are modelled; `none` means the fuel ran out before the loop
returned. The `Nat` in the result is the number of physical attempts
performed. -/
def loopFrom (req : RetryReq) (tran : Nat → TranResult) (ctxDone : Nat → Bool) :
    Nat → Nat → Option (LoopResult × Nat)
  | _, 0 => none
  | i, fuel + 1 =>
    match tran i with
    | .err e =>
      if req.isErrBreaking e then some (.errOut e, i)
      else if e = .eof then
        -- switch case `err == io.EOF` matches; fall through to the retry
        -- decision with a nil response
        if (i : Int) = req.maxAttempts then some (.errOut .eof, i)
        else if ctxDone i then some (.errOut .ctxCanceled, i)
        else loopFrom req tran ctxDone (i + 1) fuel
      else
        -- a reset-by-peer class error: not `io.EOF`, so after the multipart
        -- case the switch evaluates `httpResp.StatusCode` on a nil response
        if i = 1 ∧ req.optMultiPartForm = true ∧ req.multiPartFormErr.isSome then
          some (.errOut (req.multiPartFormErr.getD (.other 0)), i)
        else some (.panicked, i)
    | .ok st closeErr =>
      if i = 1 ∧ req.optMultiPartForm = true ∧ req.multiPartFormErr.isSome then
        some (.errOut (req.multiPartFormErr.getD (.other 0)), i)
      else if st < 500 then some (.resp st, i)
      else if (i : Int) = req.maxAttempts then some (.resp st, i)
      else
        match closeErr with
        | some ce => some (.errOut ce, i)
        | none =>
          if ctxDone i then some (.errOut .ctxCanceled, i)
          else loopFrom req tran ctxDone (i + 1) fuel

/-- Go `httpRespWithRetries`: the retry loop started at attempt 1. -/
def httpRespWithRetries (req : RetryReq) (tran : Nat → TranResult)
    (ctxDone : Nat → Bool) (fuel : Nat) : Option (LoopResult × Nat) :=
  loopFrom req tran ctxDone 1 fuel

/-- Condition under which the retry-loop iteration for attempt `j` falls
through to the backoff wait: a 5xx response whose body closes cleanly
(outside the multipart-error case), or a retryable EOF transport error. -/
def proceedsToWait (req : RetryReq) (r : TranResult) (j : Nat) : Prop :=
  (∃ s, r = .ok s none ∧ 500 ≤ s
    ∧ ¬(j = 1 ∧ req.optMultiPartForm = true ∧ req.multiPartFormErr.isSome = true))
  ∨ (r = .err .eof ∧ req.retryOnEOFError = true)

example : httpRespWithRetries ⟨3, false, false, none⟩
    (fun j => .ok (if j = 1 then 503 else 200) none) (fun _ => false) 3
    = some (.resp 200, 2) := by decide

example : httpRespWithRetries ⟨2, false, false, none⟩
    (fun _ => .err .resetByPeer) (fun _ => false) 2
    = some (.panicked, 1) := by decide

/-! Response lifecycle and decoder dispatch (part_011, decode.go,
pools.go). Body streams are modelled as lists of bytes; pooled
`bytes.Buffer` values are identified by a `BufId`. -/

/-- Decode functions selectable on a `Response`. -/
inductive DecoderKind where
  | json
  | gob
  | xml
  | custom (tag : Nat)
deriving DecidableEq, Repr

/-- Value of the `ContentTypeJSON` constant. -/
def ContentTypeJSON : String := "application/json"

/-- Value of the `ContentTypeGob` constant. -/
def ContentTypeGob : String := "application/gob"

/-- Value of the `ContentTypeXML` constant. -/
def ContentTypeXML : String := "application/xml"

/-- Identity of a pooled `bytes.Buffer`. -/
abbrev BufId := Nat

/-- Go `putBuffer`: reset the buffer and put it back into the pool (the pool
is modelled as the list of buffer ids it holds). -/
def putBuffer (pool : List BufId) (b : BufId) : List BufId :=
  pool ++ [b]

/-- State of a `Response` as consulted by `Decode`, `Bytes`, `Body` and
`Close`. `raw` holds the unread bytes of `response.Body` and `rawCloseErr`
the error its first `Close()` returns; `bodyIsTee` records whether
`resp.body` was replaced by a `TeeReader` into `copiedBody`. -/
structure Resp where
  contentType : String
  decodeFunc : Option DecoderKind
  raw : List Nat
  rawClosed : Bool
  rawCloseErr : Option GoErr
  bodyIsTee : Bool
  copiedBody : Option (BufId × List Nat)
  keepBody : Bool
  bodyClosed : Bool
deriving DecidableEq, Repr

/-- Close the raw body stream: the first close yields `rawCloseErr`, later
closes yield nil, as `net/http` response bodies do. -/
def rawClose (resp : Resp) : Resp × Option GoErr :=
  if resp.rawClosed then (resp, none)
  else ({ resp with rawClosed := true }, resp.rawCloseErr)

/-- Go `Response.Close` (part_011): return the copied-body buffer to the
pool when `keepBody` is set and a copy exists, then close the raw stream
unless `bodyClosed`, treating an `io.EOF` close error as success. -/
def Resp.Close (resp : Resp) (pool : List BufId) :
    Resp × List BufId × Option GoErr :=
  let pool := match resp.keepBody, resp.copiedBody with
    | true, some (b, _) => putBuffer pool b
    | _, _ => pool
  if resp.bodyClosed then (resp, pool, none)
  else
    let (resp, e) := rawClose resp
    match e with
    | some GoErr.eof => (resp, pool, none)
    | some e => (resp, pool, some e)
    | none => (resp, pool, none)

/-- Go `Response.Bytes`: return the cached copy when one exists; otherwise
read the whole raw stream into a fresh pooled buffer (id `freshBuf`), close
the raw stream, and cache the buffer. -/
def Resp.Bytes (resp : Resp) (freshBuf : BufId) :
    Resp × Except GoErr (List Nat) :=
  match resp.copiedBody with
  | some (_, bts) => (resp, .ok bts)
  | none =>
    let content := resp.raw
    let resp := { resp with raw := [] }
    let (resp, e) := rawClose resp
    match e with
    | some err => (resp, .error err)
    | none =>
      ({ resp with bodyClosed := true, copiedBody := some (freshBuf, content) },
        .ok content)

/-- Reader handed out by `Response.Body`. -/
inductive BodyReader where
  | copied (bts : List Nat)
  | rawStream
deriving DecidableEq, Repr

/-- Go `Response.Body`: the copied body when `keepBody` is set and a copy
exists, else the raw stream. -/
def Resp.Body (resp : Resp) : BodyReader :=
  match resp.keepBody, resp.copiedBody with
  | true, some (_, bts) => .copied bts
  | _, _ => .rawStream

/-- Read `n` bytes from `resp.body`: the raw stream advances and, when the
body is a tee, the bytes read are appended to the copied-body buffer. -/
def readBody (resp : Resp) (n : Nat) : Resp :=
  let bts := resp.raw.take n
  if resp.bodyIsTee then
    match resp.copiedBody with
    | some (b, c) =>
      { resp with raw := resp.raw.drop n, copiedBody := some (b, c ++ bts) }
    | none => { resp with raw := resp.raw.drop n }
  else { resp with raw := resp.raw.drop n }

/-- Decode options from decode.go, as the data they carry.
`withCopiedBody` carries the id of the fresh buffer `getBuffer` yields. -/
inductive DecodeOpt where
  | withJSON
  | withGob
  | withXML
  | withCustom (tag : Nat)
  | withCopiedBody (buf : BufId)
deriving DecidableEq, Repr

/-- Effect of one decode option on the response (none of the source's
decode options ever returns an error). `withCopiedBody` installs a
`TeeReader` into a fresh (empty) pooled buffer. -/
def applyOpt (resp : Resp) : DecodeOpt → Resp
  | .withJSON => { resp with decodeFunc := some .json }
  | .withGob => { resp with decodeFunc := some .gob }
  | .withXML => { resp with decodeFunc := some .xml }
  | .withCustom t => { resp with decodeFunc := some (.custom t) }
  | .withCopiedBody b =>
    { resp with bodyIsTee := true, copiedBody := some (b, []), keepBody := true }

/-- Go `Response.detectDecoder` (part_011, first revision): select a decoder
from the `Content-Type` header, or none. -/
def detectDecoder (resp : Resp) : Option DecoderKind :=
  if resp.contentType = ContentTypeJSON then some .json
  else if resp.contentType = ContentTypeGob then some .gob
  else if resp.contentType = ContentTypeXML then some .xml
  else none

/-- Errors `Response.Decode` returns. -/
inductive DecodeErr where
  | noValidDecoder
  | decodeFailed (k : DecoderKind)
deriving DecidableEq, Repr

/-- Go `Response.Decode` (part_011, first revision): apply the options, fall
back to content-type detection when no decode function was configured, and
run the selected decode function on `resp.body`, closing the raw body
(the deferred `resp.response.Body.Close()`) before returning. The external
decoders are abstracted by `consume`: for decoder `k` on stream contents
`s`, `consume k s` gives the number of bytes the decoder reads and whether
it succeeds. -/
def Resp.Decode (resp : Resp) (opts : List DecodeOpt)
    (consume : DecoderKind → List Nat → Nat × Bool) :
    Resp × Except DecodeErr Unit :=
  let resp := opts.foldl applyOpt resp
  let resp := match resp.decodeFunc with
    | none => { resp with decodeFunc := detectDecoder resp }
    | some _ => resp
  match resp.decodeFunc with
  | none => ((rawClose resp).1, .error .noValidDecoder)
  | some k =>
    let nk := consume k resp.raw
    let resp := readBody resp nk.1
    let resp := (rawClose resp).1
    (resp, if nk.2 then .ok () else .error (.decodeFailed k))

/-- A concrete `Response` that retained a copied-body buffer (id 7) after a
decode with the copied-body option: the raw stream was closed by Decode's
deferred close, `keepBody` is set, `bodyClosed` is not. -/
def keptBodyResp : Resp :=
  { contentType := "", decodeFunc := none, raw := [],
    rawClosed := true, rawCloseErr := none, bodyIsTee := true,
    copiedBody := some (7, [1, 2]), keepBody := true,
    bodyClosed := false }

/-- A fresh `Response` (as built by `NewResponse`) whose raw body holds
three bytes. -/
def teeResp : Resp :=
  { contentType := "", decodeFunc := none, raw := [1, 2, 3],
    rawClosed := false, rawCloseErr := none, bodyIsTee := false,
    copiedBody := none, keepBody := false, bodyClosed := false }

/-! Rate limiter (part_013). -/

/-- State of a `rateLimit`; `tickerInterval` is `none` when no ticker was
created. -/
structure RateLimit where
  enforcedRate : Int
  tickerInterval : Option Int
deriving DecidableEq, Repr

/-- Go `newRateLimit`: zero or negative inputs yield a no-op limiter;
otherwise the interval is `dur / rate` (Go truncated division of
`time.Duration` values). `none` models the fault `time.NewTicker` raises
when the computed interval is not positive. -/
def newRateLimit (rate : Int) (dur : Int) : Option RateLimit :=
  if rate ≤ 0 ∨ dur ≤ 0 then some ⟨0, none⟩
  else
    let iv := Int.tdiv dur rate
    if iv ≤ 0 then none
    else some ⟨iv, some iv⟩

/-- Event that ends the select inside `limit`: the ticker fires, or the
caller's context completes first. -/
inductive LimitEvent where
  | tick
  | ctxDone
deriving DecidableEq, Repr

/-- Observable outcome of one `limit` call: whether the call blocked on the
select at all, and whether it stopped the ticker. -/
structure LimitOutcome where
  blocked : Bool
  tickerStopped : Bool
deriving DecidableEq, Repr

/-- Go `rateLimit.limit`: a zero `enforcedRate` returns immediately without
blocking; otherwise the select races the ticker against the context, and
when the context completes first the call returns at once, stopping the
ticker. -/
def RateLimit.limit (rl : RateLimit) (ev : LimitEvent) : LimitOutcome :=
  if rl.enforcedRate = 0 then ⟨false, false⟩
  else match ev with
    | .tick => ⟨true, false⟩
    | .ctxDone => ⟨true, true⟩

/-! Helper lemmas. -/

lemma i64_of_small {z : Int} (h0 : 0 ≤ z) (h1 : z < 2 ^ 63) : i64 z = z := by
  unfold i64
  norm_num at h1 ⊢
  rw [Int.emod_eq_of_lt h0 (by omega)]
  simp [h1]

lemma toUInt64_of_small {z : Int} (h0 : 0 ≤ z) (h1 : z < 2 ^ 64) :
    toUInt64 z = z.toNat := by
  unfold toUInt64
  rw [Int.emod_eq_of_lt h0 h1]

lemma normalizeDelay_eq_clampSpec {x lo hi : Int} (h : lo ≤ hi) :
    normalizeDelay x lo hi = clampSpec x lo hi := by
  unfold normalizeDelay clampSpec
  split_ifs <;> omega

lemma normalizeDelay_mem {x lo hi : Int} (h : lo ≤ hi) :
    lo ≤ normalizeDelay x lo hi ∧ normalizeDelay x lo hi ≤ hi := by
  unfold normalizeDelay
  split_ifs <;> omega

lemma jitter_defined {delay : Int} (r : Int) (hd : 3 ≤ delay) :
    jitter delay r
      = some (if i64 (delay + (r - Int.tdiv delay 3)) ≤ 0 then 1
          else i64 (delay + (r - Int.tdiv delay 3))) := by
  have htd : (1 : Int) ≤ Int.tdiv delay 3 := by
    rw [Int.tdiv_eq_ediv (by omega) (by omega)]
    omega
  unfold jitter
  rw [if_neg (by omega)]

/-! Claim C5. -/

/-- C5 (amended): without jitter, `exponentialBackoff.waitDuration` equals
`min × 2^(attempt-1)` clamped to `[min, max]` for every attempt `≥ 1` whose
ideal delay `min × 2^(attempt-1)` stays below `2^63`, i.e. does not overflow
the `int64` duration; `0 ≤ min ≤ max` with `max` an `int64` value. The
unbounded claim fails at overflow (see the counterexample). -/
theorem expWaitDuration_no_jitter_eq_clamp (b : ExponentialBackoff)
    (attempt r : Int)
    (hj : b.useJitter = false) (h1 : 1 ≤ attempt)
    (h0 : 0 ≤ b.min) (hmm : b.min ≤ b.max) (hmax : b.max < 2 ^ 63)
    (hov : b.min * 2 ^ (attempt - 1).toNat < 2 ^ 63) :
    b.waitDuration attempt r
      = some (clampSpec (b.min * 2 ^ (attempt - 1).toNat) b.min b.max) := by
  have hbase : expBaseDelay b attempt = b.min * 2 ^ (attempt - 1).toNat := by
    unfold expBaseDelay goShl
    rw [mul_one, i64_of_small h0 (lt_of_le_of_lt hmm hmax)]
    rcases eq_or_lt_of_le h0 with hz | hpos
    · rw [← hz]
      simp [i64]
    · have hk : (attempt - 1).toNat < 63 := by
        by_contra hge
        push_neg at hge
        have h2k : (2 : Int) ^ (63 : Nat) ≤ 2 ^ (attempt - 1).toNat :=
          pow_le_pow_right₀ (by norm_num) hge
        have : (2 : Int) ^ (63 : Nat) ≤ b.min * 2 ^ (attempt - 1).toNat := by
          calc (2 : Int) ^ (63 : Nat) ≤ 2 ^ (attempt - 1).toNat := h2k
          _ ≤ b.min * 2 ^ (attempt - 1).toNat := by
              nlinarith [pow_pos (show (0:Int) < 2 by norm_num) (attempt - 1).toNat]
        norm_num at this hov
        omega
      have ha : attempt - 1 < 2 ^ 64 := by
        have := Int.toNat_of_nonneg (show (0:Int) ≤ attempt - 1 by omega)
        norm_num
        omega
      rw [toUInt64_of_small (by omega) ha]
      exact i64_of_small (by positivity) hov
  unfold ExponentialBackoff.waitDuration
  rw [hj, hbase]
  simp [normalizeDelay_eq_clampSpec hmm]

/-- C5 witness: at min 1s, max 30s, attempt 3 the value is 4s. -/
theorem expWaitDuration_no_jitter_eq_clamp_witness :
    ExponentialBackoff.waitDuration ⟨1000000000, 30000000000, false⟩ 3 0
      = some (clampSpec (1000000000 * 2 ^ ((3 : Int) - 1).toNat)
          1000000000 30000000000) :=
  expWaitDuration_no_jitter_eq_clamp ⟨1000000000, 30000000000, false⟩ 3 0
    rfl (by norm_num) (by norm_num) (by norm_num) (by norm_num) (by decide)

/-- C5 counterexample: with min 1s and max 30s, at attempt 65 the Go shift
overflows to 0 and `waitDuration` yields the min (1s), not the clamp of
`min × 2^64` (which is 30s); the claim's unbounded-attempt statement is
false. -/
theorem expWaitDuration_overflow_cex :
    ¬ (ExponentialBackoff.waitDuration ⟨1000000000, 30000000000, false⟩ 65 0
      = some (clampSpec (1000000000 * 2 ^ ((65 : Int) - 1).toNat)
          1000000000 30000000000)) := by decide

/-! Claim C6. -/

/-- C6 (amended): for jittered exponential and linear backoff with
`min ≤ max`, whenever the computed base delay is at least 3 ns — so that the
bound handed to `rand.Int63n` is positive and the call does not fault —
`waitDuration` is defined for every random draw and its result lies within
`[min, max]`. For a base delay under 3 ns (e.g. `min = 0`) the jitter path
faults (see the counterexample). -/
theorem jittered_waitDuration_within_bounds :
    (∀ (b : ExponentialBackoff) (attempt r : Int), b.useJitter = true →
      1 ≤ attempt → b.min ≤ b.max → 3 ≤ expBaseDelay b attempt →
      ∃ d, b.waitDuration attempt r = some d ∧ b.min ≤ d ∧ d ≤ b.max)
    ∧ (∀ (b : LinearBackoff) (attempt r : Int), b.useJitter = true →
      1 ≤ attempt → b.min ≤ b.max → 3 ≤ linBaseDelay b attempt →
      ∃ d, b.waitDuration attempt r = some d ∧ b.min ≤ d ∧ d ≤ b.max) := by
  constructor
  · intro b attempt r hj _ hmm hd
    unfold ExponentialBackoff.waitDuration
    rw [hj]
    simp only [if_true, jitter_defined r hd, Option.bind_eq_bind, Option.some_bind]
    exact ⟨_, rfl, normalizeDelay_mem hmm⟩
  · intro b attempt r hj _ hmm hd
    unfold LinearBackoff.waitDuration
    rw [hj]
    simp only [if_true, jitter_defined r hd, Option.bind_eq_bind, Option.some_bind]
    exact ⟨_, rfl, normalizeDelay_mem hmm⟩

/-- C6 witness: jittered exponential backoff with min 1s, max 10s at
attempt 2 and draw 0 is defined and falls within the bounds. -/
theorem jittered_waitDuration_within_bounds_witness :
    ∃ d, ExponentialBackoff.waitDuration ⟨1000000000, 10000000000, true⟩ 2 0
        = some d ∧ 1000000000 ≤ d ∧ d ≤ 10000000000 :=
  jittered_waitDuration_within_bounds.1 ⟨1000000000, 10000000000, true⟩ 2 0
    rfl (by norm_num) (by norm_num) (by decide)

/-- C6 counterexample: with `min = 0` and jitter enabled, attempt 1 computes
base delay 0, so `rand.Int63n` is called with bound 0 and the call faults
(`none`), contradicting the claim that every jittered configuration is
defined and lands in `[min, max]`. -/
theorem jittered_min_zero_cex :
    ExponentialBackoff.waitDuration ⟨0, 10000000000, true⟩ 1 0 = none := by
  decide

/-! Claim C9. -/

/-- C9 (amended): `newRateLimit` with a nonpositive rate or duration yields
a no-op limiter whose `limit` never blocks; with positive rate and duration
whose quotient `duration / rate` is at least one time unit it yields a
limiter with exactly that admission interval, whose `limit` proceeds on the
ticker slot and, when the context completes first, returns immediately and
stops the internal ticker. When `0 < duration < rate` the quotient is zero
and the ticker constructor faults instead (see the counterexample). -/
theorem rateLimit_spec :
    (∀ rate dur : Int, rate ≤ 0 ∨ dur ≤ 0 →
      newRateLimit rate dur = some ⟨0, none⟩
      ∧ ∀ ev, RateLimit.limit ⟨0, none⟩ ev = ⟨false, false⟩)
    ∧ (∀ rate dur : Int, 0 < rate → 0 < dur → 1 ≤ Int.tdiv dur rate →
      newRateLimit rate dur = some ⟨Int.tdiv dur rate, some (Int.tdiv dur rate)⟩
      ∧ RateLimit.limit ⟨Int.tdiv dur rate, some (Int.tdiv dur rate)⟩ .tick
          = ⟨true, false⟩
      ∧ RateLimit.limit ⟨Int.tdiv dur rate, some (Int.tdiv dur rate)⟩ .ctxDone
          = ⟨true, true⟩) := by
  constructor
  · intro rate dur h
    refine ⟨by unfold newRateLimit; rw [if_pos h], ?_⟩
    intro ev
    unfold RateLimit.limit
    simp
  · intro rate dur hr hd hq
    refine ⟨?_, ?_, ?_⟩
    · unfold newRateLimit
      rw [if_neg (by omega), if_neg (by omega)]
    · unfold RateLimit.limit
      rw [if_neg (by simp; omega)]
    · unfold RateLimit.limit
      rw [if_neg (by simp; omega)]

/-- C9 witness: rate 10 per 1 ms gives interval 100000 ns; rate 0 gives a
no-op limiter. -/
theorem rateLimit_spec_witness :
    newRateLimit 10 1000000 = some ⟨100000, some 100000⟩
    ∧ RateLimit.limit ⟨100000, some 100000⟩ .ctxDone = ⟨true, true⟩
    ∧ newRateLimit 0 1000000 = some ⟨0, none⟩ := by
  have h2 := (rateLimit_spec.2 10 1000000 (by norm_num) (by norm_num)
    (by decide))
  have h1 := rateLimit_spec.1 0 1000000 (Or.inl (by norm_num))
  exact ⟨by simpa using h2.1, by simpa using h2.2.2, h1.1⟩

/-- C9 counterexample: with rate 2 and duration 1 ns — both positive — the
computed interval is 0 and `time.NewTicker` faults, so `newRateLimit` does
not yield a limiter at all, contrary to the claim. -/
theorem rateLimit_zero_interval_cex : newRateLimit 2 1 = none := by decide

/-! Claim C10. -/

/-- C10: once `Bytes` has succeeded, every later `Bytes` call returns the
same bytes from the cached copied-body buffer, leaves the response state
untouched (no further raw read or close), and cannot fail. -/
theorem bytes_idempotent_after_success (resp resp' : Resp) (b b' : BufId)
    (bts : List Nat) (h : resp.Bytes b = (resp', .ok bts)) :
    resp'.Bytes b' = (resp', .ok bts) := by
  unfold Resp.Bytes at h ⊢
  cases hc : resp.copiedBody with
  | some p =>
    rw [hc] at h
    obtain ⟨p1, p2⟩ := p
    simp at h
    obtain ⟨h1, h2⟩ := h
    rw [← h1, hc, h2]
  | none =>
    rw [hc] at h
    simp at h
    unfold rawClose at h
    by_cases hrc : resp.rawClosed
    · simp [hrc] at h
      obtain ⟨h1, h2⟩ := h
      rw [← h1]
      simp [h2]
    · simp [hrc] at h
      cases he : resp.rawCloseErr with
      | some e => rw [he] at h; simp at h
      | none =>
        rw [he] at h
        simp at h
        obtain ⟨h1, h2⟩ := h
        rw [← h1]
        simp [h2]

/-- C10 witness: a concrete response whose raw body holds two bytes; the
second `Bytes` call returns the same bytes and the same state. -/
theorem bytes_idempotent_after_success_witness :
    Resp.Bytes
      { contentType := "", decodeFunc := none, raw := [],
        rawClosed := true, rawCloseErr := none, bodyIsTee := false,
        copiedBody := some (5, [1, 2]), keepBody := false,
        bodyClosed := true }
      6
      = ({ contentType := "", decodeFunc := none, raw := [],
           rawClosed := true, rawCloseErr := none, bodyIsTee := false,
           copiedBody := some (5, [1, 2]), keepBody := false,
           bodyClosed := true }, .ok [1, 2]) :=
  bytes_idempotent_after_success
    { contentType := "", decodeFunc := none, raw := [1, 2],
      rawClosed := false, rawCloseErr := none, bodyIsTee := false,
      copiedBody := none, keepBody := false, bodyClosed := false }
    { contentType := "", decodeFunc := none, raw := [],
      rawClosed := true, rawCloseErr := none, bodyIsTee := false,
      copiedBody := some (5, [1, 2]), keepBody := false,
      bodyClosed := true }
    5 6 [1, 2] (by rfl)

/-! Claim C4. -/

/-- C4: the code evaluated at the failing input. Closing a Response that
retained a copied-body buffer twice returns the same pooled buffer (id 7)
to the pool on both calls — the pool ends holding it twice — although both
calls return a nil error. This contradicts the claim that `Close` never
double-returns a pooled buffer. -/
theorem close_twice_double_returns_buffer :
    (keptBodyResp.Close []).2.2 = none
    ∧ ((keptBodyResp.Close []).1.Close (keptBodyResp.Close []).2.1).2.2 = none
    ∧ ((keptBodyResp.Close []).1.Close (keptBodyResp.Close []).2.1).2.1
        = [7, 7] := by decide

/-! Claim C2. -/

/-- C2: the code evaluated at the failing input. A reset-by-peer transport
error on attempt 1 of 2 is classified non-breaking (retryable) by
`isErrBreaking`, yet instead of proceeding to the retry decision the loop
evaluates `httpResp.StatusCode` on the nil response and panics. -/
theorem resetByPeer_retryable_but_panics :
    RetryReq.isErrBreaking ⟨2, false, false, none⟩ .resetByPeer = false
    ∧ httpRespWithRetries ⟨2, false, false, none⟩ (fun _ => .err .resetByPeer)
        (fun _ => false) 2 = some (.panicked, 1) := by decide

/-! Claims C7 and C8: decoder dispatch. -/

lemma applyOpt_raw (resp : Resp) (o : DecodeOpt) :
    (applyOpt resp o).raw = resp.raw := by
  cases o <;> rfl

lemma applyOpt_contentType (resp : Resp) (o : DecodeOpt) :
    (applyOpt resp o).contentType = resp.contentType := by
  cases o <;> rfl

lemma foldl_applyOpt_raw (opts : List DecodeOpt) (resp : Resp) :
    (opts.foldl applyOpt resp).raw = resp.raw := by
  induction opts generalizing resp with
  | nil => rfl
  | cons o os ih => rw [List.foldl_cons, ih, applyOpt_raw]

lemma foldl_applyOpt_contentType (opts : List DecodeOpt) (resp : Resp) :
    (opts.foldl applyOpt resp).contentType = resp.contentType := by
  induction opts generalizing resp with
  | nil => rfl
  | cons o os ih => rw [List.foldl_cons, ih, applyOpt_contentType]

lemma rawClose_fields (resp : Resp) :
    (rawClose resp).1.rawClosed = true
    ∧ (rawClose resp).1.decodeFunc = resp.decodeFunc
    ∧ (rawClose resp).1.copiedBody = resp.copiedBody
    ∧ (rawClose resp).1.keepBody = resp.keepBody
    ∧ (rawClose resp).1.raw = resp.raw := by
  unfold rawClose
  split_ifs with h <;> simp_all

lemma readBody_fields (resp : Resp) (n : Nat) :
    (readBody resp n).decodeFunc = resp.decodeFunc
    ∧ (readBody resp n).keepBody = resp.keepBody
    ∧ (readBody resp n).rawClosed = resp.rawClosed
    ∧ (readBody resp n).raw = resp.raw.drop n := by
  unfold readBody
  rcases hb : resp.bodyIsTee <;> rcases hc : resp.copiedBody with _ | ⟨b, c⟩ <;>
    simp [hb, hc]

lemma decode_explicit (resp : Resp) (opts : List DecodeOpt)
    (consume : DecoderKind → List Nat → Nat × Bool) (k : DecoderKind)
    (hd : (opts.foldl applyOpt resp).decodeFunc = some k) :
    resp.Decode opts consume
      = ((rawClose (readBody (opts.foldl applyOpt resp)
            (consume k (opts.foldl applyOpt resp).raw).1)).1,
        if (consume k (opts.foldl applyOpt resp).raw).2 then .ok ()
        else .error (.decodeFailed k)) := by
  unfold Resp.Decode
  simp only [hd]

lemma decode_detected (resp : Resp) (opts : List DecodeOpt)
    (consume : DecoderKind → List Nat → Nat × Bool) (k : DecoderKind)
    (hd : (opts.foldl applyOpt resp).decodeFunc = none)
    (hdet : detectDecoder (opts.foldl applyOpt resp) = some k) :
    resp.Decode opts consume
      = ((rawClose (readBody
            { opts.foldl applyOpt resp with decodeFunc := some k }
            (consume k (opts.foldl applyOpt resp).raw).1)).1,
        if (consume k (opts.foldl applyOpt resp).raw).2 then .ok ()
        else .error (.decodeFailed k)) := by
  unfold Resp.Decode
  simp only [hd, hdet]

lemma decode_no_decoder (resp : Resp) (opts : List DecodeOpt)
    (consume : DecoderKind → List Nat → Nat × Bool)
    (hd : (opts.foldl applyOpt resp).decodeFunc = none)
    (hdet : detectDecoder (opts.foldl applyOpt resp) = none) :
    resp.Decode opts consume
      = ((rawClose { opts.foldl applyOpt resp with decodeFunc := none }).1,
        .error .noValidDecoder) := by
  unfold Resp.Decode
  simp only [hd, hdet]

lemma body_of_kept (resp : Resp) (b : BufId) (bts : List Nat)
    (hk : resp.keepBody = true) (hc : resp.copiedBody = some (b, bts)) :
    resp.Body = .copied bts := by
  unfold Resp.Body
  rw [hk, hc]

/-- C7: `Decode` uses an explicitly configured decode function
unconditionally; otherwise it selects the decoder from the declared
Content-Type header (JSON, Gob or XML); when nothing matches it returns the
undeterminable-decoder error; and in each of those cases the underlying raw
body is closed before returning. -/
theorem decode_dispatch (resp : Resp) (opts : List DecodeOpt)
    (consume : DecoderKind → List Nat → Nat × Bool) :
    ((resp.Decode opts consume).1.rawClosed = true)
    ∧ (∀ k, (opts.foldl applyOpt resp).decodeFunc = some k →
        (resp.Decode opts consume).1.decodeFunc = some k
        ∧ (resp.Decode opts consume).2
            = (if (consume k resp.raw).2 then .ok ()
              else .error (.decodeFailed k)))
    ∧ ((opts.foldl applyOpt resp).decodeFunc = none →
        ((resp.contentType = ContentTypeJSON →
            (resp.Decode opts consume).1.decodeFunc = some .json)
        ∧ (resp.contentType = ContentTypeGob →
            (resp.Decode opts consume).1.decodeFunc = some .gob)
        ∧ (resp.contentType = ContentTypeXML →
            (resp.Decode opts consume).1.decodeFunc = some .xml)
        ∧ (resp.contentType ≠ ContentTypeJSON →
            resp.contentType ≠ ContentTypeGob →
            resp.contentType ≠ ContentTypeXML →
            (resp.Decode opts consume).2 = .error .noValidDecoder))) := by
  refine ⟨?_, ?_, ?_⟩
  · cases hd : (opts.foldl applyOpt resp).decodeFunc with
    | some k =>
      rw [decode_explicit resp opts consume k hd]
      exact (rawClose_fields _).1
    | none =>
      cases hdet : detectDecoder (opts.foldl applyOpt resp) with
      | some k =>
        rw [decode_detected resp opts consume k hd hdet]
        exact (rawClose_fields _).1
      | none =>
        rw [decode_no_decoder resp opts consume hd hdet]
        exact (rawClose_fields _).1
  · intro k hd
    rw [decode_explicit resp opts consume k hd]
    refine ⟨?_, ?_⟩
    · rw [(rawClose_fields _).2.1, (readBody_fields _ _).1, hd]
    · rw [foldl_applyOpt_raw]
  · intro hd
    refine ⟨?_, ?_, ?_, ?_⟩
    · intro hct
      have hdet : detectDecoder (opts.foldl applyOpt resp) = some .json := by
        unfold detectDecoder
        rw [foldl_applyOpt_contentType, hct]
        rfl
      rw [decode_detected resp opts consume .json hd hdet,
        (rawClose_fields _).2.1, (readBody_fields _ _).1]
    · intro hct
      have hdet : detectDecoder (opts.foldl applyOpt resp) = some .gob := by
        unfold detectDecoder
        rw [foldl_applyOpt_contentType, hct]
        rfl
      rw [decode_detected resp opts consume .gob hd hdet,
        (rawClose_fields _).2.1, (readBody_fields _ _).1]
    · intro hct
      have hdet : detectDecoder (opts.foldl applyOpt resp) = some .xml := by
        unfold detectDecoder
        rw [foldl_applyOpt_contentType, hct]
        rfl
      rw [decode_detected resp opts consume .xml hd hdet,
        (rawClose_fields _).2.1, (readBody_fields _ _).1]
    · intro h1 h2 h3
      have hdet : detectDecoder (opts.foldl applyOpt resp) = none := by
        unfold detectDecoder
        rw [foldl_applyOpt_contentType]
        simp [h1, h2, h3]
      rw [decode_no_decoder resp opts consume hd hdet]

/-- C7 witness: with no explicit option and a JSON content type, the JSON
decoder is selected and the raw body ends closed. -/
theorem decode_dispatch_witness :
    (Resp.Decode
      { contentType := "application/json", decodeFunc := none, raw := [1],
        rawClosed := false, rawCloseErr := none, bodyIsTee := false,
        copiedBody := none, keepBody := false, bodyClosed := false }
      [] (fun _ s => (s.length, true))).1.decodeFunc = some .json
    ∧ (Resp.Decode
      { contentType := "application/json", decodeFunc := none, raw := [1],
        rawClosed := false, rawCloseErr := none, bodyIsTee := false,
        copiedBody := none, keepBody := false, bodyClosed := false }
      [] (fun _ s => (s.length, true))).1.rawClosed = true := by
  refine ⟨((decode_dispatch
      { contentType := "application/json", decodeFunc := none, raw := [1],
        rawClosed := false, rawCloseErr := none, bodyIsTee := false,
        copiedBody := none, keepBody := false, bodyClosed := false }
      [] (fun _ s => (s.length, true))).2.2 rfl).1 rfl,
    (decode_dispatch
      { contentType := "application/json", decodeFunc := none, raw := [1],
        rawClosed := false, rawCloseErr := none, bodyIsTee := false,
        copiedBody := none, keepBody := false, bodyClosed := false }
      [] (fun _ s => (s.length, true))).1⟩

/-- C8: with the copied-body option installed, `Decode` reads the stream in
a single pass through the tee — afterwards the retained copy holds exactly
the bytes the decoder consumed, the raw stream has advanced exactly past
them, and `Body()` hands back the copy. -/
theorem decode_copied_body_single_pass (resp : Resp) (opts : List DecodeOpt)
    (consume : DecoderKind → List Nat → Nat × Bool) (b : BufId)
    (k : DecoderKind)
    (h1 : (opts.foldl applyOpt resp).bodyIsTee = true)
    (h2 : (opts.foldl applyOpt resp).copiedBody = some (b, []))
    (h3 : (opts.foldl applyOpt resp).keepBody = true)
    (h4 : (opts.foldl applyOpt resp).decodeFunc = some k) :
    (resp.Decode opts consume).1.copiedBody
        = some (b, resp.raw.take (consume k resp.raw).1)
    ∧ (resp.Decode opts consume).1.raw
        = resp.raw.drop (consume k resp.raw).1
    ∧ (resp.Decode opts consume).1.Body
        = .copied (resp.raw.take (consume k resp.raw).1) := by
  rw [decode_explicit resp opts consume k h4]
  have hread : readBody (opts.foldl applyOpt resp)
      (consume k (opts.foldl applyOpt resp).raw).1
      = { opts.foldl applyOpt resp with
          raw := (opts.foldl applyOpt resp).raw.drop
            (consume k (opts.foldl applyOpt resp).raw).1,
          copiedBody := some (b, [] ++ (opts.foldl applyOpt resp).raw.take
            (consume k (opts.foldl applyOpt resp).raw).1) } := by
    unfold readBody
    simp [h1, h2]
  rw [hread]
  have hcb : (rawClose ({ opts.foldl applyOpt resp with
      raw := (opts.foldl applyOpt resp).raw.drop
        (consume k (opts.foldl applyOpt resp).raw).1,
      copiedBody := some (b, [] ++ (opts.foldl applyOpt resp).raw.take
        (consume k (opts.foldl applyOpt resp).raw).1) } : Resp)).1.copiedBody
      = some (b, (opts.foldl applyOpt resp).raw.take
        (consume k (opts.foldl applyOpt resp).raw).1) := by
    rw [(rawClose_fields _).2.2.1]
    simp
  refine ⟨?_, ?_, ?_⟩
  · rw [hcb, foldl_applyOpt_raw]
  · rw [(rawClose_fields _).2.2.2.2]
    simp [foldl_applyOpt_raw]
  · refine body_of_kept _ b (resp.raw.take (consume k resp.raw).1) ?_ ?_
    · rw [(rawClose_fields _).2.2.2.1]
      simpa using h3
    · rw [hcb, foldl_applyOpt_raw]

/-- C8 witness: a JSON decode with the copied-body option on a three-byte
body of which the decoder consumes two bytes: the copy holds those two
bytes, the raw stream holds the third, and `Body()` returns the copy. -/
theorem decode_copied_body_single_pass_witness :
    (teeResp.Decode [DecodeOpt.withJSON, DecodeOpt.withCopiedBody 4]
        (fun _ _ => (2, true))).1.copiedBody = some (4, [1, 2])
    ∧ (teeResp.Decode [DecodeOpt.withJSON, DecodeOpt.withCopiedBody 4]
        (fun _ _ => (2, true))).1.raw = [3]
    ∧ (teeResp.Decode [DecodeOpt.withJSON, DecodeOpt.withCopiedBody 4]
        (fun _ _ => (2, true))).1.Body = .copied [1, 2] :=
  decode_copied_body_single_pass teeResp
    [DecodeOpt.withJSON, DecodeOpt.withCopiedBody 4]
    (fun _ _ => (2, true)) 4 .json rfl rfl rfl rfl

/-! Claims C1 and C3: the retry loop. -/

lemma loopFrom_all5xx (req : RetryReq) (tran : Nat → TranResult)
    (ctxDone : Nat → Bool) (st : Nat → Int) (N : Nat)
    (hN : req.maxAttempts = (N : Int))
    (hmp : req.optMultiPartForm = false)
    (htran : ∀ j, tran j = .ok (st j) none)
    (hctx : ∀ j, ctxDone j = false) :
    ∀ fuel i, 1 ≤ i → i ≤ N → N + 1 ≤ fuel + i →
      (∀ j, i ≤ j → j ≤ N → 500 ≤ st j) →
      loopFrom req tran ctxDone i fuel = some (.resp (st N), N) := by
  intro fuel
  induction fuel with
  | zero => intro i _ h2 h3 _; omega
  | succ fuel ih =>
    intro i h1 h2 h3 hge
    have h5 : ¬ st i < 500 := not_lt.mpr (hge i le_rfl h2)
    rw [loopFrom, htran i]
    simp only [hmp]
    rw [if_neg (by simp), if_neg h5]
    by_cases hiN : i = N
    · subst hiN
      rw [if_pos (by rw [hN])]
    · rw [if_neg (by rw [hN]; exact_mod_cast hiN), hctx i, if_neg (by simp)]
      exact ih (i + 1) (by omega) (by omega) (by omega)
        (fun j hj1 hj2 => hge j (by omega) hj2)

lemma loopFrom_first_success (req : RetryReq) (tran : Nat → TranResult)
    (ctxDone : Nat → Bool) (st : Nat → Int) (N k : Nat)
    (hN : req.maxAttempts = (N : Int))
    (hmp : req.optMultiPartForm = false)
    (htran : ∀ j, tran j = .ok (st j) none)
    (hctx : ∀ j, ctxDone j = false)
    (hkN : k ≤ N) (hk : st k < 500) :
    ∀ fuel i, 1 ≤ i → i ≤ k → N + 1 ≤ fuel + i →
      (∀ j, i ≤ j → j < k → 500 ≤ st j) →
      loopFrom req tran ctxDone i fuel = some (.resp (st k), k) := by
  intro fuel
  induction fuel with
  | zero => intro i _ h2 h3 _; omega
  | succ fuel ih =>
    intro i h1 h2 h3 hge
    rw [loopFrom, htran i]
    simp only [hmp]
    rw [if_neg (by simp)]
    by_cases hik : i = k
    · subst hik
      rw [if_pos hk]
    · have h5 : ¬ st i < 500 := not_lt.mpr (hge i le_rfl (by omega))
      rw [if_neg h5, if_neg (by rw [hN]; exact_mod_cast (by omega : i ≠ N)),
        hctx i, if_neg (by simp)]
      exact ih (i + 1) (by omega) (by omega) (by omega)
        (fun j hj1 hj2 => hge j (by omega) hj2)

lemma loopFrom_cancelled (req : RetryReq) (tran : Nat → TranResult)
    (ctxDone : Nat → Bool) (N k : Nat)
    (hN : req.maxAttempts = (N : Int)) (hkN : k < N)
    (hproc : ∀ j, 1 ≤ j → j ≤ k → proceedsToWait req (tran j) j)
    (hctxlt : ∀ j, 1 ≤ j → j < k → ctxDone j = false)
    (hctxk : ctxDone k = true) :
    ∀ fuel i, 1 ≤ i → i ≤ k → k + 1 ≤ fuel + i →
      loopFrom req tran ctxDone i fuel = some (.errOut .ctxCanceled, k) := by
  intro fuel
  induction fuel with
  | zero => intro i _ h2 h3; omega
  | succ fuel ih =>
    intro i h1 h2 h3
    have hcd : ctxDone i = (if i = k then true else false) := by
      by_cases hik : i = k
      · subst hik; simp [hctxk]
      · rw [if_neg hik]; exact hctxlt i h1 (by omega)
    rcases hproc i h1 h2 with ⟨s, htr, hs, hnm⟩ | ⟨htr, hre⟩
    · rw [loopFrom, htr]
      dsimp only
      rw [if_neg hnm, if_neg (not_lt.mpr hs),
        if_neg (by rw [hN]; exact_mod_cast (by omega : i ≠ N)), hcd]
      by_cases hik : i = k
      · subst hik; simp
      · rw [if_neg (by simp [hik])]
        exact ih (i + 1) (by omega) (by omega) (by omega)
    · have hbr : req.isErrBreaking .eof = false := by
        unfold RetryReq.isErrBreaking
        simp [hre]
      rw [loopFrom, htr]
      dsimp only
      rw [hbr]
      rw [if_neg (by simp), if_pos rfl,
        if_neg (by rw [hN]; exact_mod_cast (by omega : i ≠ N)), hcd]
      by_cases hik : i = k
      · subst hik; simp
      · rw [if_neg (by simp [hik])]
        exact ih (i + 1) (by omega) (by omega) (by omega)

/-- C1: against a transport whose physical calls all succeed (no transport
error, bodies closing cleanly, no pending multipart failure, no
cancellation), the retry loop performs attempts sequentially and stops at
the first attempt whose status is below 500, returning it; and when every
status through `maxAttempts = N ≥ 1` is a 5xx it performs exactly `N`
attempts and returns the last 5xx response as a normal non-error result. -/
theorem retry_loop_first_sub500_or_exhaust (req : RetryReq)
    (tran : Nat → TranResult) (ctxDone : Nat → Bool) (st : Nat → Int)
    (N fuel : Nat)
    (hN : req.maxAttempts = (N : Int)) (h1N : 1 ≤ N)
    (hmp : req.optMultiPartForm = false)
    (htran : ∀ j, tran j = .ok (st j) none)
    (hctx : ∀ j, ctxDone j = false)
    (hfuel : N ≤ fuel) :
    (∀ k, 1 ≤ k → k ≤ N → st k < 500 →
      (∀ j, 1 ≤ j → j < k → 500 ≤ st j) →
      httpRespWithRetries req tran ctxDone fuel = some (.resp (st k), k))
    ∧ ((∀ j, 1 ≤ j → j ≤ N → 500 ≤ st j) →
      httpRespWithRetries req tran ctxDone fuel
        = some (.resp (st N), N)) := by
  constructor
  · intro k hk1 hkN hklt hprev
    exact loopFrom_first_success req tran ctxDone st N k hN hmp htran hctx
      hkN hklt fuel 1 le_rfl hk1 (by omega) (fun j hj1 hj2 => hprev j hj1 hj2)
  · intro hall
    exact loopFrom_all5xx req tran ctxDone st N hN hmp htran hctx fuel 1
      le_rfl h1N (by omega) (fun j hj1 hj2 => hall j hj1 hj2)

/-- C1 witness: `maxAttempts = 3`, attempt 1 returns 503 and attempt 2
returns 200: exactly 2 attempts, final result the 200 response; and with
every attempt returning 503 under `maxAttempts = 2`: exactly 2 attempts and
the last 503 response as a non-error result. -/
theorem retry_loop_first_sub500_or_exhaust_witness :
    httpRespWithRetries ⟨3, false, false, none⟩
      (fun j => .ok (if j = 1 then 503 else 200) none) (fun _ => false) 3
      = some (.resp ((fun j => if j = 1 then (503 : Int) else 200) 2), 2)
    ∧ httpRespWithRetries ⟨2, false, false, none⟩
      (fun _ => .ok 503 none) (fun _ => false) 2
      = some (.resp ((fun _ => (503 : Int)) 2), 2) := by
  constructor
  · exact (retry_loop_first_sub500_or_exhaust ⟨3, false, false, none⟩
      (fun j => .ok (if j = 1 then 503 else 200) none) (fun _ => false)
      (fun j => if j = 1 then 503 else 200) 3 3 rfl (by norm_num) rfl
      (fun _ => rfl) (fun _ => rfl) le_rfl).1 2 (by norm_num) (by norm_num)
      (by norm_num)
      (by intro j hj1 hj2; have : j = 1 := by omega
          subst this; norm_num)
  · exact (retry_loop_first_sub500_or_exhaust ⟨2, false, false, none⟩
      (fun _ => .ok 503 none) (fun _ => false) (fun _ => 503) 2 2 rfl
      (by norm_num) rfl (fun _ => rfl) (fun _ => rfl) le_rfl).2
      (fun j _ _ => by norm_num)

/-- C3: whenever the caller's context completes during the backoff wait
after attempt `k < maxAttempts` (all earlier waits undisturbed and every
attempt so far transient — a 5xx or a retryable EOF), the loop terminates
at once with the context's cancellation error: exactly `k` attempts were
made, no response is returned, and any prior transient error is
discarded. -/
theorem cancelled_backoff_returns_ctx_error (req : RetryReq)
    (tran : Nat → TranResult) (ctxDone : Nat → Bool) (N k fuel : Nat)
    (hN : req.maxAttempts = (N : Int)) (hk1 : 1 ≤ k) (hkN : k < N)
    (hfuel : k ≤ fuel)
    (hproc : ∀ j, 1 ≤ j → j ≤ k → proceedsToWait req (tran j) j)
    (hctxlt : ∀ j, 1 ≤ j → j < k → ctxDone j = false)
    (hctxk : ctxDone k = true) :
    httpRespWithRetries req tran ctxDone fuel
      = some (.errOut .ctxCanceled, k) :=
  loopFrom_cancelled req tran ctxDone N k hN hkN hproc hctxlt hctxk fuel 1
    le_rfl hk1 (by omega)

/-- C3 witness: `maxAttempts = 3`, attempt 1 returns 503, and the context
completes during the first backoff wait: the loop stops after exactly one
attempt with the cancellation error. -/
theorem cancelled_backoff_returns_ctx_error_witness :
    httpRespWithRetries ⟨3, false, false, none⟩ (fun _ => .ok 503 none)
      (fun j => j = 1) 3 = some (.errOut .ctxCanceled, 1) :=
  cancelled_backoff_returns_ctx_error ⟨3, false, false, none⟩
    (fun _ => .ok 503 none) (fun j => j = 1) 3 1 3 rfl le_rfl
    (by norm_num) (by norm_num)
    (fun j _ _ => Or.inl ⟨503, rfl, by norm_num, by simp⟩)
    (fun j hj1 hj2 => by omega)
    (by simp)

end Fetcher
